import Mathlib

/-!
Shallow embedding of the `copilot deploy` orchestration controller
(`internal/pkg/cli/deploy.go`) and proofs about it.

The Go methods on `deployOpts` are modelled as pure functions from an
oracle `World` (the answers of the store, workspace, prompter, selector
and of the lifecycle sub-commands) and the current `DeployOpts` state to a
triple: the Go return value (`Except String` mirrors Go's `error`, errors
carried as their rendered message), the updated state, and the ordered
list of observable calls (`Event`) the method performed.  Go `*bool`
fields become `Option Bool` (`none` = nil pointer), Go nil-able slices
become `Option (List _)` where the code distinguishes nil from empty.
-/

namespace CopilotDeploy

/-- A workload record as stored in the config store (`config.Workload`,
only the fields read by deploy.go: `Name` and `Type`). -/
structure Workload where
  name : String
  wtype : String
deriving DecidableEq

/-- A workload manifest; deploy.go only ever calls `WorkloadType()` on it. -/
structure WorkloadManifest where
  workloadType : Except String String

/-- Result of `store.GetEnvironment`: found, the distinguished
`ErrNoSuchEnvironment`, or any other error. -/
inductive GetEnvResult
  | found
  | noSuchEnv
  | otherErr (msg : String)
deriving DecidableEq

/-- Stage results of a 3-stage `cmd` (env init / env deploy):
`none` = the stage returns nil, `some e` = it fails with message `e`. -/
structure Stages3 where
  validate : Option String
  ask : Option String
  execute : Option String

/-- Stage results of a 4-stage per-workload `actionCommand`. -/
structure Stages4 where
  ask : Option String
  validate : Option String
  execute : Option String
  recommendActions : Option String

/-- Structured stand-ins for the `log.Infof` / `log.Errorf` notices emitted
by deploy.go; the claims only concern which notice is emitted, so the
payload records the notice identity and its dynamic arguments rather than
the rendered text. -/
inductive LogMsg
  | envUnresolvable (env : String)
  | envManifestMissing (env : String)
  | envJustInitialized (env : String)
  | envInitializedNotDeployed
  | envNotInitialized (env app : String)
deriving DecidableEq

/-- One observable call performed by the controller, in program order. -/
inductive Event
  | selWorkload
  | selEnvironment (extraOptions : List String)
  | storeGetEnvironment
  | storeListEnvironments
  | storeListWorkloads
  | storeGetWorkload (name : String)
  | wsListEnvironments
  | wsReadManifest (name : String)
  | promptConfirm (msg : String)
  | addWorkloadToApp (app name wtype : String)
  | logInfo (msg : LogMsg)
  | logError (msg : LogMsg)
  | envInitValidate
  | envInitAsk
  | envInitExecute
  | envDeployValidate
  | envDeployAsk
  | envDeployExecute
  | wkldAsk (name : String)
  | wkldValidate (name : String)
  | wkldExecute (name : String)
  | wkldRecommendActions (name : String)
deriving DecidableEq

/-- The oracle: responses of every external collaborator consumed by the
controller (store, workspace, selector, prompter, workload adder, and the
lifecycle sub-commands built by the command factories). -/
structure World where
  selWorkload : Except String String
  selEnvironment : Except String String
  storeGetEnvironment : GetEnvResult
  storeListEnvironments : Except String (List String)
  storeListWorkloads : Except String (List Workload)
  storeGetWorkload : String → Except String Workload
  wsListEnvironments : Except String (List String)
  readWorkloadManifest : String → Except String WorkloadManifest
  promptConfirm : String → Except String Bool
  addWorkloadToApp : String → String → String → Option String
  newInitEnvCmdErr : Option String
  initEnvCmd : Stages3
  newDeployEnvCmdErr : Option String
  deployEnvCmd : Stages3
  wkldStages : String → Stages4

/-- Which family of deploy command `setupDeployCmd` constructed
(`deployJobOpts` vs `deploySvcOpts`). -/
inductive DeployCmdKind
  | jobCmd
  | svcCmd
deriving DecidableEq

/-- The mutable state of `deployOpts` that the embedded methods read or
write.  `setupDeployCmd` is a function field exactly as in the Go struct
(tests inject a mock there; `newDeployOpts` installs the real factory). -/
structure DeployOpts where
  appName : String
  envName : String
  workloadNames : Option (List String)
  yesInitWkld : Option Bool
  deployEnv : Option Bool
  yesInitEnv : Option Bool
  wlType : String
  envExistsInApp : Bool
  envExistsInWs : Bool
  wsEnvironments : Option (List String)
  setupDeployCmd : String → String → Except String DeployCmdKind

/-- Result of one embedded method: Go return value, updated receiver
state, and the trace of observable calls it made. -/
abbrev StepResult (α : Type) := Except String α × DeployOpts × List Event

/-- Go constant `svcWkldType`. -/
def svcWkldType : String := "svc"

/-- Go constant `jobWkldType`. -/
def jobWkldType : String := "job"

/-- Modelled from the spec: flag name `--init-wkld` (`yesInitWorkloadFlag`
lives in the flag file, which is not under src/; the name is pinned by the
test expectation "workload fe is uninitialized but --init-wkld=false was
specified"). -/
def yesInitWorkloadFlag : String := "init-wkld"

/-- Modelled from the spec: the closed job-type set of the `manifestinfo`
package, which is not under src/.  The spec speaks of "the closed job-type
set" and the repository's tests pin "Scheduled Job" as the job type. -/
def jobTypes : List String := ["Scheduled Job"]

/-- Modelled from the spec: the service types of the `manifestinfo`
package (not under src/); the tests pin "Load Balanced Web Service" and
"Backend Service" as non-job workload types. -/
def serviceTypes : List String :=
  ["Request-Driven Web Service", "Load Balanced Web Service", "Backend Service",
   "Worker Service", "Static Site"]

/-- Modelled from the spec: `manifestinfo.WorkloadTypes()`, the closed set
of all known workload types (services then jobs). -/
def workloadTypes : List String := serviceTypes ++ jobTypes

/-- Go's `fmt` verb `%q` on the identifiers used here (no escaping needed
for the plain names this controller handles). -/
def goQuote (s : String) : String := "\"" ++ s ++ "\""

/-- `aws.BoolValue`: dereference a `*bool`, nil meaning false. -/
def awsBoolValue : Option Bool → Bool
  | none => false
  | some b => b

/-- Prepend already-performed events to a step's trace. -/
def prependTrace (t0 : List Event) (r : StepResult Unit) : StepResult Unit :=
  (r.1, r.2.1, t0 ++ r.2.2)

/-- Sequence two steps the way the Go statements `if err := ...; err != nil
\x7b return err \x7d` chain them: stop at the first error, thread the
state, concatenate the traces. -/
def seqR (r : StepResult Unit) (f : DeployOpts → StepResult Unit) : StepResult Unit :=
  match r with
  | (.error e, o, t) => (.error e, o, t)
  | (.ok _, o, t) =>
    match f o with
    | (r2, o2, t2) => (r2, o2, t ++ t2)

/-- The deploy-command factory installed by `newDeployOpts`
(`setupDeployCmd` closure, deploy.go lines 133-175).  Note both `case`
arms of the Go `switch` test membership in `manifestinfo.JobTypes()`; the
arm that builds `deploySvcOpts` is therefore unreachable. -/
def defaultSetupDeployCmd (_workloadName workloadType : String) :
    Except String DeployCmdKind :=
  if jobTypes.contains workloadType then .ok .jobCmd
  else if jobTypes.contains workloadType then .ok .svcCmd
  else .error ("unrecognized workload type " ++ workloadType)

/-- `(*deployOpts).askName` (deploy.go lines 274-284).  The guard is the
source's exact condition `o.workloadNames != nil || len(o.workloadNames)
!= 0`. -/
def askName (w : World) (o : DeployOpts) : StepResult Unit :=
  if o.workloadNames.isSome || (o.workloadNames.getD []).length != 0 then
    (.ok (), o, [])
  else
    match w.selWorkload with
    | .error e => (.error ("select service or job: " ++ e), o, [.selWorkload])
    | .ok name => (.ok (), { o with workloadNames := some [name] }, [.selWorkload])

/-- `(*deployOpts).listWsEnvironments` (deploy.go lines 286-299): query the
workspace once and cache.  (The Go body replaces a nil result slice by an
empty one before caching so the cache test works; with `Option (List
String)` the cached value `some []` plays that role.) -/
def listWsEnvironments (w : World) (o : DeployOpts) : StepResult (List String) :=
  match o.wsEnvironments with
  | none =>
    match w.wsListEnvironments with
    | .error e => (.error e, o, [.wsListEnvironments])
    | .ok envs => (.ok envs, { o with wsEnvironments := some envs }, [.wsListEnvironments])
  | some envs => (.ok envs, o, [])

/-- `(*deployOpts).askEnv` (deploy.go lines 301-335). -/
def askEnv (w : World) (o : DeployOpts) : StepResult Unit :=
  if o.envName != "" then (.ok (), o, [])
  else
    match listWsEnvironments w o with
    | (.error e, o1, t1) => (.error ("get workspace environments: " ++ e), o1, t1)
    | (.ok localEnvs, o1, t1) =>
      match w.storeListEnvironments with
      | .error e =>
        (.error ("get initialized environments: " ++ e), o1, t1 ++ [.storeListEnvironments])
      | .ok initted =>
        let extra := localEnvs.filter (fun le => !(initted.contains le))
        match w.selEnvironment with
        | .error e =>
          (.error ("get environment name: " ++ e), o1,
           t1 ++ [.storeListEnvironments, .selEnvironment extra])
        | .ok env =>
          (.ok (), { o1 with envName := env },
           t1 ++ [.storeListEnvironments, .selEnvironment extra])

/-- The tail of `checkEnvExists` after the store query: workspace listing,
membership, and the four-combination check (deploy.go lines 348-363). -/
def checkEnvExistsRest (w : World) (o : DeployOpts) : StepResult Unit :=
  match listWsEnvironments w o with
  | (.error e, o1, t1) => (.error ("list environments in workspace: " ++ e), o1, t1)
  | (.ok envs, o1, t1) =>
    let o2 := { o1 with envExistsInWs := envs.contains o1.envName }
    if !o2.envExistsInApp && !o2.envExistsInWs then
      (.error ("environment " ++ goQuote o1.envName ++ " does not exist in the workspace"),
       o2, t1 ++ [.logError (.envUnresolvable o1.envName)])
    else if o2.envExistsInApp && !o2.envExistsInWs then
      (.ok (), o2, t1 ++ [.logInfo (.envManifestMissing o1.envName)])
    else (.ok (), o2, t1)

/-- `(*deployOpts).checkEnvExists` (deploy.go lines 338-364). -/
def checkEnvExists (w : World) (o : DeployOpts) : StepResult Unit :=
  match w.storeGetEnvironment with
  | .otherErr e =>
    (.error ("get environment from config store: " ++ e),
     { o with envExistsInApp := true }, [.storeGetEnvironment])
  | .found =>
    prependTrace [.storeGetEnvironment] (checkEnvExistsRest w { o with envExistsInApp := true })
  | .noSuchEnv =>
    prependTrace [.storeGetEnvironment] (checkEnvExistsRest w { o with envExistsInApp := false })

/-- The confirmation question of `maybeInitEnv` (deploy.go line 373). -/
def initEnvConfirmMsg (o : DeployOpts) : String :=
  "Environment " ++ goQuote o.envName ++ " does not exist in app " ++ goQuote o.appName ++
    ". Initialize it?"

/-- The tail of `maybeInitEnv` once `yesInitEnv` is resolved (deploy.go
lines 380-404): run the env-init command, then infer `deployEnv`. -/
def maybeInitEnvRest (w : World) (o : DeployOpts) : StepResult Unit :=
  if awsBoolValue o.yesInitEnv then
    match w.newInitEnvCmdErr with
    | some e => (.error ("load env init command : " ++ e), o, [])
    | none =>
      match w.initEnvCmd.validate with
      | some e => (.error e, o, [.envInitValidate])
      | none =>
        match w.initEnvCmd.ask with
        | some e => (.error e, o, [.envInitValidate, .envInitAsk])
        | none =>
          match w.initEnvCmd.execute with
          | some e => (.error e, o, [.envInitValidate, .envInitAsk, .envInitExecute])
          | none =>
            match o.deployEnv with
            | none =>
              (.ok (), { o with deployEnv := some true },
               [.envInitValidate, .envInitAsk, .envInitExecute,
                .logInfo (.envJustInitialized o.envName)])
            | some b =>
              if b then (.ok (), o, [.envInitValidate, .envInitAsk, .envInitExecute])
              else
                (.error ("environment " ++ o.envName ++
                   " was initialized but has not been deployed"), o,
                 [.envInitValidate, .envInitAsk, .envInitExecute,
                  .logError .envInitializedNotDeployed])
  else
    (.error ("env " ++ o.envName ++ " does not exist in app " ++ o.appName), o,
     [.logError (.envNotInitialized o.envName o.appName)])

/-- `(*deployOpts).maybeInitEnv` (deploy.go lines 366-405). -/
def maybeInitEnv (w : World) (o : DeployOpts) : StepResult Unit :=
  if o.envExistsInApp then (.ok (), o, [])
  else
    match o.yesInitEnv with
    | none =>
      match w.promptConfirm (initEnvConfirmMsg o) with
      | .error e =>
        (.error ("confirm env init: " ++ e), o, [.promptConfirm (initEnvConfirmMsg o)])
      | .ok v =>
        prependTrace [.promptConfirm (initEnvConfirmMsg o)]
          (maybeInitEnvRest w { o with yesInitEnv := some v })
    | some _ => maybeInitEnvRest w o

/-- `(*deployOpts).maybeDeployEnv` (deploy.go lines 407-426). -/
def maybeDeployEnv (w : World) (o : DeployOpts) : StepResult Unit :=
  if !o.envExistsInWs then (.ok (), o, [])
  else
    if awsBoolValue o.deployEnv then
      match w.newDeployEnvCmdErr with
      | some e => (.error ("set up env deploy command: " ++ e), o, [])
      | none =>
        match w.deployEnvCmd.validate with
        | some e => (.error e, o, [.envDeployValidate])
        | none =>
          match w.deployEnvCmd.ask with
          | some e => (.error e, o, [.envDeployValidate, .envDeployAsk])
          | none =>
            match w.deployEnvCmd.execute with
            | some e => (.error e, o, [.envDeployValidate, .envDeployAsk, .envDeployExecute])
            | none => (.ok (), o, [.envDeployValidate, .envDeployAsk, .envDeployExecute])
    else (.ok (), o, [])

/-- The confirmation question of `maybeInitWkld` (deploy.go line 210). -/
def uninitWkldConfirmMsg (wtype name : String) : String :=
  "Found manifest for uninitialized " ++ wtype ++ " " ++ goQuote name ++ ". Initialize it?"

/-- The tail of `maybeInitWkld` once `yesInitWkld` is resolved (deploy.go
lines 217-225). -/
def maybeInitWkldAdd (w : World) (o : DeployOpts) (name wtype : String) : StepResult Unit :=
  if !(awsBoolValue o.yesInitWkld) then
    (.error ("workload " ++ name ++ " is uninitialized but --" ++ yesInitWorkloadFlag ++
       "=false was specified"), o, [])
  else
    match w.addWorkloadToApp o.appName name wtype with
    | some e => (.error ("add workload to app: " ++ e), o, [.addWorkloadToApp o.appName name wtype])
    | none => (.ok (), o, [.addWorkloadToApp o.appName name wtype])

/-- The confirmation step of `maybeInitWkld` (deploy.go lines 209-215). -/
def maybeInitWkldConfirm (w : World) (o : DeployOpts) (name wtype : String) : StepResult Unit :=
  match o.yesInitWkld with
  | none =>
    match w.promptConfirm (uninitWkldConfirmMsg wtype name) with
    | .error e =>
      (.error ("confirm initialize workload: " ++ e), o,
       [.promptConfirm (uninitWkldConfirmMsg wtype name)])
    | .ok v =>
      prependTrace [.promptConfirm (uninitWkldConfirmMsg wtype name)]
        (maybeInitWkldAdd w { o with yesInitWkld := some v } name wtype)
  | some _ => maybeInitWkldAdd w o name wtype

/-- `(*deployOpts).maybeInitWkld` (deploy.go lines 179-226). -/
def maybeInitWkld (w : World) (o : DeployOpts) (name : String) : StepResult Unit :=
  match w.storeListWorkloads with
  | .error e => (.error ("retrieve workloads: " ++ e), o, [.storeListWorkloads])
  | .ok wls =>
    if (wls.map Workload.name).contains name then (.ok (), o, [.storeListWorkloads])
    else
      match w.readWorkloadManifest name with
      | .error e =>
        (.error ("read manifest for workload " ++ name ++ ": " ++ e), o,
         [.storeListWorkloads, .wsReadManifest name])
      | .ok mf =>
        match mf.workloadType with
        | .error e =>
          (.error ("get workload type from manifest for workload " ++ name ++ ": " ++ e), o,
           [.storeListWorkloads, .wsReadManifest name])
        | .ok wt =>
          if !(workloadTypes.contains wt) then
            (.error ("unrecognized workload type " ++ goQuote wt ++
               " in manifest for workload " ++ name), o,
             [.storeListWorkloads, .wsReadManifest name])
          else
            prependTrace [.storeListWorkloads, .wsReadManifest name]
              (maybeInitWkldConfirm w o name wt)

/-- `(*deployOpts).loadWkldCmd` (deploy.go lines 428-443): fetch the
record, build the command via the `setupDeployCmd` field, record the
job/svc classification in `wlType`.  The error wrapping reproduces the
source's argument order `fmt.Errorf("retrieve %s from application %s: %w",
o.appName, name, err)`. -/
def loadWkldCmd (w : World) (o : DeployOpts) (name : String) : StepResult DeployCmdKind :=
  match w.storeGetWorkload name with
  | .error e =>
    (.error ("retrieve " ++ o.appName ++ " from application " ++ name ++ ": " ++ e), o,
     [.storeGetWorkload name])
  | .ok wl =>
    match o.setupDeployCmd name wl.wtype with
    | .error e => (.error e, o, [.storeGetWorkload name])
    | .ok k =>
      if jobTypes.contains wl.wtype then
        (.ok k, { o with wlType := jobWkldType }, [.storeGetWorkload name])
      else
        (.ok k, { o with wlType := svcWkldType }, [.storeGetWorkload name])

/-- One iteration of the per-workload loop in `Run` (deploy.go lines
249-269): init decision, command construction, then `Ask`, `Validate`,
`Execute`, `RecommendActions` with the source's wrapping. -/
def runOne (w : World) (o : DeployOpts) (name : String) : StepResult Unit :=
  match maybeInitWkld w o name with
  | (.error e, o1, t1) => (.error e, o1, t1)
  | (.ok _, o1, t1) =>
    match loadWkldCmd w o1 name with
    | (.error e, o2, t2) => (.error e, o2, t1 ++ t2)
    | (.ok _, o2, t2) =>
      match (w.wkldStages name).ask with
      | some e =>
        (.error ("ask " ++ o2.wlType ++ " deploy: " ++ e), o2, t1 ++ (t2 ++ [.wkldAsk name]))
      | none =>
        match (w.wkldStages name).validate with
        | some e =>
          (.error ("validate " ++ o2.wlType ++ " deploy: " ++ e), o2,
           t1 ++ (t2 ++ [.wkldAsk name, .wkldValidate name]))
        | none =>
          match (w.wkldStages name).execute with
          | some e =>
            (.error ("execute " ++ o2.wlType ++ " deploy: " ++ e), o2,
             t1 ++ (t2 ++ [.wkldAsk name, .wkldValidate name, .wkldExecute name]))
          | none =>
            match (w.wkldStages name).recommendActions with
            | some e =>
              (.error e, o2,
               t1 ++ (t2 ++ [.wkldAsk name, .wkldValidate name, .wkldExecute name,
                 .wkldRecommendActions name]))
            | none =>
              (.ok (), o2,
               t1 ++ (t2 ++ [.wkldAsk name, .wkldValidate name, .wkldExecute name,
                 .wkldRecommendActions name]))

/-- The `for _, workload := range o.workloadNames` loop of `Run`. -/
def runLoop (w : World) : DeployOpts → List String → StepResult Unit
  | o, [] => (.ok (), o, [])
  | o, n :: rest => seqR (runOne w o n) (fun o1 => runLoop w o1 rest)

/-- `(*deployOpts).Run` (deploy.go lines 228-272). -/
def Run (w : World) (o : DeployOpts) : StepResult Unit :=
  seqR (askName w o) (fun o1 =>
  seqR (askEnv w o1) (fun o2 =>
  seqR (checkEnvExists w o2) (fun o3 =>
  seqR (maybeInitEnv w o3) (fun o4 =>
  seqR (maybeDeployEnv w o4) (fun o5 =>
  runLoop w o5 (o5.workloadNames.getD []))))))

/-!  Vocabulary for stating properties of traces.  -/

/-- Number of occurrences of an event in a trace. -/
def countEv (e : Event) : List Event → Nat
  | [] => 0
  | x :: xs => (if x = e then 1 else 0) + countEv e xs

/-- Is this one of the four stage invocations of the per-workload deploy
command for workload `n`? -/
def isWkldStageEvent (n : String) : Event → Bool
  | .wkldAsk m => m == n
  | .wkldValidate m => m == n
  | .wkldExecute m => m == n
  | .wkldRecommendActions m => m == n
  | _ => false

/-- The stage invocations of workload `n`'s deploy command, in trace order. -/
def stageEventsOf (n : String) (t : List Event) : List Event :=
  t.filter (isWkldStageEvent n)

/-- Events that mutate the Store, the Workspace, or deployed
infrastructure: the workload-add operation and the `Execute` stages. -/
def isMutationEvent : Event → Bool
  | .addWorkloadToApp _ _ _ => true
  | .envInitExecute => true
  | .envDeployExecute => true
  | .wkldExecute _ => true
  | _ => false

/-- Events that the name/environment resolution phase (`askName`,
`askEnv`, `listWsEnvironments`) can emit. -/
def isResolveEvent : Event → Bool
  | .selWorkload => true
  | .selEnvironment _ => true
  | .storeListEnvironments => true
  | .wsListEnvironments => true
  | _ => false

/-- Events that `checkEnvExists` can emit. -/
def isCheckEvent : Event → Bool
  | .storeGetEnvironment => true
  | .wsListEnvironments => true
  | .logInfo _ => true
  | .logError _ => true
  | _ => false

/-- Events that the per-workload loop (`maybeInitWkld`, `loadWkldCmd`, the
four stages) can emit. -/
def isLoopEvent : Event → Bool
  | .storeListWorkloads => true
  | .wsReadManifest _ => true
  | .promptConfirm _ => true
  | .addWorkloadToApp _ _ _ => true
  | .storeGetWorkload _ => true
  | .wkldAsk _ => true
  | .wkldValidate _ => true
  | .wkldExecute _ => true
  | .wkldRecommendActions _ => true
  | _ => false

/-- Events that the workload init decision (`maybeInitWkld`) can emit:
store listing, manifest read, confirmation prompt, add-workload call. -/
def isInitPhaseEvent : Event → Bool
  | .storeListWorkloads => true
  | .wsReadManifest _ => true
  | .promptConfirm _ => true
  | .addWorkloadToApp _ _ _ => true
  | _ => false

/-- The six stage invocations of the environment init / deploy commands. -/
def isEnvCmdEvent : Event → Bool
  | .envInitValidate => true
  | .envInitAsk => true
  | .envInitExecute => true
  | .envDeployValidate => true
  | .envDeployAsk => true
  | .envDeployExecute => true
  | _ => false

/-- Does the character list start with the pattern? -/
def startsWithL : List Char → List Char → Bool
  | [], _ => true
  | _ :: _, [] => false
  | a :: pa, b :: pb => a == b && startsWithL pa pb

/-- Does the character list contain the pattern as a contiguous run? -/
def hasSubL (pat : List Char) : List Char → Bool
  | [] => pat.isEmpty
  | c :: ts => startsWithL pat (c :: ts) || hasSubL pat ts

/-- Does string `s` mention `pat` as a substring? -/
def strMentions (s pat : String) : Bool := hasSubL pat.data s.data

/-!  Concrete inputs used by witnesses and counterexamples.  They mirror
the fixtures of `deploy_test.go`: app "app", env "test", service workload
"fe" of type "Load Balanced Web Service", job workload "mailer" of type
"Scheduled Job".  -/

/-- A benign oracle: everything exists, every call succeeds. -/
def wBase : World := {
  selWorkload := .ok "fe"
  selEnvironment := .ok "test"
  storeGetEnvironment := .found
  storeListEnvironments := .ok ["test"]
  storeListWorkloads := .ok [⟨"fe", "Load Balanced Web Service"⟩, ⟨"mailer", "Scheduled Job"⟩]
  storeGetWorkload := fun n =>
    if n == "mailer" then .ok ⟨"mailer", "Scheduled Job"⟩
    else .ok ⟨"fe", "Load Balanced Web Service"⟩
  wsListEnvironments := .ok ["test"]
  readWorkloadManifest := fun _ => .ok ⟨.ok "Load Balanced Web Service"⟩
  promptConfirm := fun _ => .ok true
  addWorkloadToApp := fun _ _ _ => none
  newInitEnvCmdErr := none
  initEnvCmd := ⟨none, none, none⟩
  newDeployEnvCmdErr := none
  deployEnvCmd := ⟨none, none, none⟩
  wkldStages := fun _ => ⟨none, none, none, none⟩ }

/-- Baseline request: everything explicit, env deploy switched off, the
real command factory installed. -/
def oBase : DeployOpts := {
  appName := "app"
  envName := "test"
  workloadNames := some ["fe"]
  yesInitWkld := none
  deployEnv := some false
  yesInitEnv := some false
  wlType := ""
  envExistsInApp := false
  envExistsInWs := false
  wsEnvironments := none
  setupDeployCmd := defaultSetupDeployCmd }

/-- Input for C1: the registered service workload "fe". -/
def co1 : DeployOpts := oBase

/-- Input for C2: deploy the job "mailer" so the real factory succeeds. -/
def co2 : DeployOpts := { oBase with workloadNames := some ["mailer"] }

/-- Input for C3: workload "fe" not yet in the store, its manifest
unreadable, so the iteration fails at the init decision. -/
def cw3 : World :=
  { wBase with
    storeListWorkloads := .ok []
    readWorkloadManifest := fun _ => .error "some error" }

/-- Request for C3. -/
def co3 : DeployOpts := oBase

/-- Oracle for C3's amended-claim witness: two registered jobs; the
second one fails at its `Execute` stage. -/
def cw3w : World :=
  { wBase with
    storeListWorkloads := .ok [⟨"mailer", "Scheduled Job"⟩, ⟨"nightly", "Scheduled Job"⟩]
    storeGetWorkload := fun n => .ok ⟨n, "Scheduled Job"⟩
    wkldStages := fun n =>
      if n == "nightly" then ⟨none, none, some "boom", none⟩ else ⟨none, none, none, none⟩ }

/-- Request for C3's amended-claim witness: the batch ["mailer", "nightly"]. -/
def co3w : DeployOpts := { oBase with workloadNames := some ["mailer", "nightly"] }

/-- Oracle for C6: the job's `RecommendActions` stage fails. -/
def cw6 : World :=
  { wBase with wkldStages := fun _ => ⟨none, none, none, some "some error"⟩ }

/-- Request for C6. -/
def co6 : DeployOpts := { oBase with workloadNames := some ["mailer"] }

/-- Oracle for C6's amended-claim witness: the job's `Ask` stage fails. -/
def cw6w : World :=
  { wBase with wkldStages := fun _ => ⟨some "boom", none, none, none⟩ }

/-- Oracle for C7: the store cannot return the workload record. -/
def cw7 : World := { wBase with storeGetWorkload := fun _ => .error "some error" }

/-- Request for C7. -/
def co7 : DeployOpts := oBase

/-- Request for C8's counterexample: a declared-but-empty workload list. -/
def co8 : DeployOpts := { oBase with workloadNames := some [] }

/-- Request for C8's amended-claim witness: no workload names at all. -/
def co8w : DeployOpts := { oBase with workloadNames := none }

/-- Request for C9's witness: "fe" is already registered in the store. -/
def co9 : DeployOpts := oBase

/-- Oracle for C4's witness: the environment is nowhere. -/
def cw4 : World :=
  { wBase with storeGetEnvironment := .noSuchEnv, wsListEnvironments := .ok [] }

/-- Request for C4's witness. -/
def co4 : DeployOpts := oBase

/-- Oracle for C5's witness: env not in store, present in workspace. -/
def cw5 : World := { wBase with storeGetEnvironment := .noSuchEnv }

/-- Request for C5's witness: `deployEnv` unset, `initEnv` forced true. -/
def co5 : DeployOpts := { oBase with deployEnv := none, yesInitEnv := some true }

/-- Oracle for C10's witness: env registered remotely, absent locally. -/
def cw10 : World := { wBase with wsListEnvironments := .ok [] }

/-- Request for C10's witness: `deployEnv` explicitly forced true. -/
def co10 : DeployOpts := { oBase with deployEnv := some true }

/-!  Helper lemmas: trace bookkeeping.  -/

theorem countEv_append (e : Event) (t1 t2 : List Event) :
    countEv e (t1 ++ t2) = countEv e t1 + countEv e t2 := by
  induction t1 with
  | nil => simp [countEv]
  | cons x xs ih => simp [countEv, ih]; omega

theorem countEv_eq_zero (e : Event) (t : List Event) (h : e ∉ t) : countEv e t = 0 := by
  induction t with
  | nil => rfl
  | cons x xs ih =>
    simp only [List.mem_cons, not_or] at h
    simp [countEv, Ne.symm h.1, ih h.2]

theorem not_mem_of_class (cls : Event → Bool) (t : List Event) (e : Event)
    (hall : ∀ x ∈ t, cls x = true) (he : cls e = false) : e ∉ t := by
  intro hmem
  have := hall e hmem
  simp [he] at this

/-!  Helper lemmas: which events each phase can emit.  -/

theorem listWs_events (w : World) (o : DeployOpts) :
    ∀ e ∈ (listWsEnvironments w o).2.2, e = Event.wsListEnvironments := by
  intro e he
  unfold listWsEnvironments at he
  split at he
  · split at he <;> simp_all
  · simp_all

theorem askName_events (w : World) (o : DeployOpts) :
    ∀ e ∈ (askName w o).2.2, isResolveEvent e = true := by
  intro e he
  unfold askName at he
  split at he
  · simp at he
  · split at he <;> simp_all [isResolveEvent]

theorem askEnv_events (w : World) (o : DeployOpts) :
    ∀ e ∈ (askEnv w o).2.2, isResolveEvent e = true := by
  intro e he
  have hsub := listWs_events w o
  unfold askEnv at he
  split at he
  · simp at he
  · split at he
    · rename_i e1 o1 t1 heq
      rw [heq] at hsub
      have := hsub e he
      subst this
      simp [isResolveEvent]
    · rename_i localEnvs o1 t1 heq
      rw [heq] at hsub
      simp only at hsub
      split at he <;>
        [skip; split at he] <;>
        simp only at he <;>
        rcases List.mem_append.1 he with hl | hr <;>
        first
          | (have hx := hsub _ hl; subst hx; simp [isResolveEvent])
          | (simp only [List.mem_cons, List.not_mem_nil, or_false] at hr
             rcases hr with rfl | rfl <;> simp [isResolveEvent])

theorem checkEnvExistsRest_events (w : World) (o : DeployOpts) :
    ∀ e ∈ (checkEnvExistsRest w o).2.2, isCheckEvent e = true := by
  intro e he
  have hsub := listWs_events w o
  unfold checkEnvExistsRest at he
  split at he
  · rename_i e1 o1 t1 heq
    rw [heq] at hsub
    have := hsub e he
    subst this
    simp [isCheckEvent]
  · rename_i envs o1 t1 heq
    rw [heq] at hsub
    simp only at hsub
    dsimp only at he
    split at he <;> [skip; split at he] <;>
      first
        | (rcases List.mem_append.1 he with hl | hr
           · have := hsub _ hl; subst this; simp [isCheckEvent]
           · simp only [List.mem_cons, List.not_mem_nil, or_false] at hr
             subst hr
             simp [isCheckEvent])
        | (have hx := hsub _ he; subst hx; simp [isCheckEvent])

theorem checkEnvExists_events (w : World) (o : DeployOpts) :
    ∀ e ∈ (checkEnvExists w o).2.2, isCheckEvent e = true := by
  intro e he
  unfold checkEnvExists at he
  split at he
  · simp_all [isCheckEvent]
  · simp only [prependTrace, List.cons_append, List.nil_append, List.mem_cons] at he
    rcases he with rfl | he
    · simp [isCheckEvent]
    · exact checkEnvExistsRest_events w _ e he
  · simp only [prependTrace, List.cons_append, List.nil_append, List.mem_cons] at he
    rcases he with rfl | he
    · simp [isCheckEvent]
    · exact checkEnvExistsRest_events w _ e he

theorem maybeInitWkldAdd_events (w : World) (o : DeployOpts) (name wtype : String) :
    ∀ e ∈ (maybeInitWkldAdd w o name wtype).2.2, isLoopEvent e = true := by
  intro e he
  unfold maybeInitWkldAdd at he
  split at he
  · simp at he
  · split at he <;> simp_all [isLoopEvent]

theorem maybeInitWkldConfirm_events (w : World) (o : DeployOpts) (name wtype : String) :
    ∀ e ∈ (maybeInitWkldConfirm w o name wtype).2.2, isLoopEvent e = true := by
  intro e he
  unfold maybeInitWkldConfirm at he
  split at he
  · split at he
    · simp_all [isLoopEvent]
    · simp only [prependTrace, List.cons_append, List.nil_append, List.mem_cons] at he
      rcases he with rfl | he
      · simp [isLoopEvent]
      · exact maybeInitWkldAdd_events w _ name wtype e he
  · exact maybeInitWkldAdd_events w o name wtype e he

theorem maybeInitWkld_events (w : World) (o : DeployOpts) (name : String) :
    ∀ e ∈ (maybeInitWkld w o name).2.2, isLoopEvent e = true := by
  intro e he
  unfold maybeInitWkld at he
  split at he
  · simp_all [isLoopEvent]
  · split at he
    · simp_all [isLoopEvent]
    · split at he
      · simp only [List.mem_cons, List.not_mem_nil, or_false] at he
        rcases he with rfl | rfl <;> simp [isLoopEvent]
      · split at he
        · simp only [List.mem_cons, List.not_mem_nil, or_false] at he
          rcases he with rfl | rfl <;> simp [isLoopEvent]
        · split at he
          · simp only [List.mem_cons, List.not_mem_nil, or_false] at he
            rcases he with rfl | rfl <;> simp [isLoopEvent]
          · simp only [prependTrace, List.cons_append, List.nil_append, List.mem_cons] at he
            rcases he with rfl | rfl | he
            · simp [isLoopEvent]
            · simp [isLoopEvent]
            · exact maybeInitWkldConfirm_events w o name _ e he

theorem loadWkldCmd_events (w : World) (o : DeployOpts) (name : String) :
    ∀ e ∈ (loadWkldCmd w o name).2.2, isLoopEvent e = true := by
  intro e he
  unfold loadWkldCmd at he
  split at he
  · simp_all [isLoopEvent]
  · split at he
    · simp_all [isLoopEvent]
    · split at he <;> simp_all [isLoopEvent]

theorem runOne_events (w : World) (o : DeployOpts) (name : String) :
    ∀ e ∈ (runOne w o name).2.2, isLoopEvent e = true := by
  intro e he
  unfold runOne at he
  split at he
  · rename_i e1 o1 t1 heq
    have hsub := maybeInitWkld_events w o name
    rw [heq] at hsub
    exact hsub e he
  · rename_i o1 t1 heq
    have hsub1 := maybeInitWkld_events w o name
    rw [heq] at hsub1
    simp only at hsub1
    split at he
    · rename_i e2 o2 t2 heq2
      have hsub2 := loadWkldCmd_events w o1 name
      rw [heq2] at hsub2
      simp only at hsub2
      rcases List.mem_append.1 he with hl | hr
      · exact hsub1 e hl
      · exact hsub2 e hr
    · rename_i k o2 t2 heq2
      have hsub2 := loadWkldCmd_events w o1 name
      rw [heq2] at hsub2
      simp only at hsub2
      split at he
      · rcases List.mem_append.1 he with h | h
        · exact hsub1 e h
        · rcases List.mem_append.1 h with h2 | h2
          · exact hsub2 e h2
          · fin_cases h2
            rfl
      · split at he
        · rcases List.mem_append.1 he with h | h
          · exact hsub1 e h
          · rcases List.mem_append.1 h with h2 | h2
            · exact hsub2 e h2
            · fin_cases h2 <;> rfl
        · split at he
          · rcases List.mem_append.1 he with h | h
            · exact hsub1 e h
            · rcases List.mem_append.1 h with h2 | h2
              · exact hsub2 e h2
              · fin_cases h2 <;> rfl
          · split at he
            · rcases List.mem_append.1 he with h | h
              · exact hsub1 e h
              · rcases List.mem_append.1 h with h2 | h2
                · exact hsub2 e h2
                · fin_cases h2 <;> rfl
            · rcases List.mem_append.1 he with h | h
              · exact hsub1 e h
              · rcases List.mem_append.1 h with h2 | h2
                · exact hsub2 e h2
                · fin_cases h2 <;> rfl

theorem runLoop_events (w : World) (o : DeployOpts) (names : List String) :
    ∀ e ∈ (runLoop w o names).2.2, isLoopEvent e = true := by
  induction names generalizing o with
  | nil => intro e he; simp [runLoop] at he
  | cons n rest ih =>
    intro e he
    unfold runLoop seqR at he
    split at he
    · rename_i e1 o1 t1 heq
      have hsub := runOne_events w o n
      rw [heq] at hsub
      exact hsub e he
    · rename_i o1 t1 heq
      have hsub := runOne_events w o n
      rw [heq] at hsub
      simp only at hsub
      split at he
      rename_i r2 o2 t2 heq2
      have heq2' : runLoop w o1 rest = (r2, o2, t2) := heq2
      simp only at he
      rcases List.mem_append.1 he with hl | hr
      · exact hsub e hl
      · have := ih o1
        rw [heq2'] at this
        exact this e hr

/-!  Helper lemmas: cross-classification of events.  -/

theorem resolve_not_mutation (e : Event) (h : isResolveEvent e = true) :
    isMutationEvent e = false := by
  cases e <;> simp_all [isResolveEvent, isMutationEvent]

theorem check_not_mutation (e : Event) (h : isCheckEvent e = true) :
    isMutationEvent e = false := by
  cases e <;> simp_all [isCheckEvent, isMutationEvent]

theorem resolve_not_envcmd (e : Event) (h : isResolveEvent e = true) :
    isEnvCmdEvent e = false := by
  cases e <;> simp_all [isResolveEvent, isEnvCmdEvent]

theorem check_not_envcmd (e : Event) (h : isCheckEvent e = true) :
    isEnvCmdEvent e = false := by
  cases e <;> simp_all [isCheckEvent, isEnvCmdEvent]

theorem loop_not_envcmd (e : Event) (h : isLoopEvent e = true) :
    isEnvCmdEvent e = false := by
  cases e <;> simp_all [isLoopEvent, isEnvCmdEvent]

theorem envcmd_not_resolve (e : Event) (h : isEnvCmdEvent e = true) :
    isResolveEvent e = false := by
  cases e <;> simp_all [isEnvCmdEvent, isResolveEvent]

theorem envcmd_not_check (e : Event) (h : isEnvCmdEvent e = true) :
    isCheckEvent e = false := by
  cases e <;> simp_all [isEnvCmdEvent, isCheckEvent]

theorem envcmd_not_loop (e : Event) (h : isEnvCmdEvent e = true) :
    isLoopEvent e = false := by
  cases e <;> simp_all [isEnvCmdEvent, isLoopEvent]

theorem countEv_zero_of_class (cls : Event → Bool) (t : List Event) (e : Event)
    (hall : ∀ x ∈ t, cls x = true) (he : cls e = false) : countEv e t = 0 :=
  countEv_eq_zero e t (not_mem_of_class cls t e hall he)

/-!  Helper lemmas: state-field preservation.  -/

theorem maybeInitWkldAdd_state (w : World) (o : DeployOpts) (name wtype : String) :
    (maybeInitWkldAdd w o name wtype).2.1 = o := by
  unfold maybeInitWkldAdd
  split
  · rfl
  · split <;> rfl

theorem maybeInitWkldConfirm_deployEnv (w : World) (o : DeployOpts) (name wtype : String) :
    (maybeInitWkldConfirm w o name wtype).2.1.deployEnv = o.deployEnv := by
  unfold maybeInitWkldConfirm
  split
  · split
    · rfl
    · simp only [prependTrace]
      rw [maybeInitWkldAdd_state]
  · rw [maybeInitWkldAdd_state]

theorem maybeInitWkld_deployEnv (w : World) (o : DeployOpts) (name : String) :
    (maybeInitWkld w o name).2.1.deployEnv = o.deployEnv := by
  unfold maybeInitWkld
  split
  · rfl
  · split
    · rfl
    · split
      · rfl
      · split
        · rfl
        · split
          · rfl
          · simp only [prependTrace]
            rw [maybeInitWkldConfirm_deployEnv]

theorem loadWkldCmd_deployEnv (w : World) (o : DeployOpts) (name : String) :
    (loadWkldCmd w o name).2.1.deployEnv = o.deployEnv := by
  unfold loadWkldCmd
  split
  · rfl
  · split
    · rfl
    · split <;> rfl

theorem runOne_deployEnv (w : World) (o : DeployOpts) (name : String) :
    (runOne w o name).2.1.deployEnv = o.deployEnv := by
  unfold runOne
  split
  · rename_i e1 o1 t1 heq
    have h1 := maybeInitWkld_deployEnv w o name
    rw [heq] at h1
    exact h1
  · rename_i o1 t1 heq
    have h1 := maybeInitWkld_deployEnv w o name
    rw [heq] at h1
    simp only at h1
    split
    · rename_i e2 o2 t2 heq2
      have h2 := loadWkldCmd_deployEnv w o1 name
      rw [heq2] at h2
      simp only at h2
      rw [h2, h1]
    · rename_i k o2 t2 heq2
      have h2 := loadWkldCmd_deployEnv w o1 name
      rw [heq2] at h2
      simp only at h2
      split <;> [skip; split] <;> [skip; skip; split] <;> [skip; skip; skip; split] <;>
        simp only <;> rw [h2, h1]

theorem runLoop_deployEnv (w : World) (o : DeployOpts) (names : List String) :
    (runLoop w o names).2.1.deployEnv = o.deployEnv := by
  induction names generalizing o with
  | nil => rfl
  | cons n rest ih =>
    unfold runLoop seqR
    split
    · rename_i e1 o1 t1 heq
      have h1 := runOne_deployEnv w o n
      rw [heq] at h1
      exact h1
    · rename_i o1 t1 heq
      have h1 := runOne_deployEnv w o n
      rw [heq] at h1
      simp only at h1
      split
      rename_i r2 o2 t2 heq2
      have heq2' : runLoop w o1 rest = (r2, o2, t2) := heq2
      have h2 := ih o1
      rw [heq2'] at h2
      simp only at h2
      rw [h2, h1]

/-!  Helper lemmas: the existence check and the environment commands.  -/

theorem listWs_state (w : World) (o : DeployOpts) :
    (listWsEnvironments w o).2.1.envExistsInApp = o.envExistsInApp := by
  unfold listWsEnvironments
  split
  · split <;> rfl
  · rfl

theorem checkEnvExistsRest_ok (w : World) (oX : DeployOpts) (o' : DeployOpts) (t' : List Event)
    (h : checkEnvExistsRest w oX = (.ok (), o', t')) :
    o'.envExistsInApp = oX.envExistsInApp
    ∧ (oX.envExistsInApp = false → o'.envExistsInWs = true) := by
  have hstate := listWs_state w oX
  unfold checkEnvExistsRest at h
  split at h
  · simp at h
  · rename_i envs o1 t1 heq
    rw [heq] at hstate
    simp only at hstate
    dsimp only at h
    split at h
    · simp at h
    · split at h
      · rename_i hcond2
        simp only [Prod.mk.injEq] at h
        obtain ⟨-, ho, -⟩ := h
        subst ho
        refine ⟨hstate, ?_⟩
        intro happ
        rw [hstate, happ] at hcond2
        simp at hcond2
      · rename_i hcond1 hcond2
        simp only [Prod.mk.injEq] at h
        obtain ⟨-, ho, -⟩ := h
        subst ho
        refine ⟨hstate, ?_⟩
        intro happ
        have h1app : o1.envExistsInApp = false := hstate.trans happ
        simp only [h1app, Bool.not_false, Bool.true_and, Bool.not_eq_true] at hcond1
        simpa using hcond1

theorem checkEnvExists_ok_ws (w : World) (o : DeployOpts) (o' : DeployOpts) (t : List Event)
    (h : checkEnvExists w o = (.ok (), o', t)) (happ : o'.envExistsInApp = false) :
    o'.envExistsInWs = true := by
  unfold checkEnvExists at h
  split at h
  · simp at h
  · rcases hR : checkEnvExistsRest w { o with envExistsInApp := true } with ⟨rR, oR, tR⟩
    rw [hR] at h
    simp only [prependTrace, Prod.mk.injEq] at h
    obtain ⟨h1, h2, -⟩ := h
    subst h1 h2
    have := (checkEnvExistsRest_ok w _ _ _ hR).1
    rw [happ] at this
    simp at this
  · rcases hR : checkEnvExistsRest w { o with envExistsInApp := false } with ⟨rR, oR, tR⟩
    rw [hR] at h
    simp only [prependTrace, Prod.mk.injEq] at h
    obtain ⟨h1, h2, -⟩ := h
    subst h1 h2
    exact (checkEnvExistsRest_ok w _ _ _ hR).2 rfl

theorem maybeInitEnv_fresh (w : World) (oc : DeployOpts)
    (happ : oc.envExistsInApp = false) (hdep : oc.deployEnv = none)
    (hyes : oc.yesInitEnv = some true
      ∨ (oc.yesInitEnv = none ∧ w.promptConfirm (initEnvConfirmMsg oc) = .ok true))
    (hinew : w.newInitEnvCmdErr = none)
    (hiv : w.initEnvCmd.validate = none) (hia : w.initEnvCmd.ask = none)
    (hie : w.initEnvCmd.execute = none) :
    ∃ od td, maybeInitEnv w oc = (.ok (), od, td)
      ∧ od.deployEnv = some true
      ∧ od.envExistsInWs = oc.envExistsInWs
      ∧ od.workloadNames = oc.workloadNames
      ∧ countEv .envInitValidate td = 1 ∧ countEv .envInitAsk td = 1
      ∧ countEv .envInitExecute td = 1
      ∧ countEv .envDeployValidate td = 0 ∧ countEv .envDeployAsk td = 0
      ∧ countEv .envDeployExecute td = 0
      ∧ Event.logInfo (.envJustInitialized oc.envName) ∈ td := by
  rcases hyes with hy | ⟨hy1, hy2⟩
  · refine ⟨{ oc with deployEnv := some true },
      [.envInitValidate, .envInitAsk, .envInitExecute,
       .logInfo (.envJustInitialized oc.envName)],
      ?_, rfl, rfl, rfl, ?_, ?_, ?_, ?_, ?_, ?_, ?_⟩
    · simp [maybeInitEnv, maybeInitEnvRest, happ, hy, hinew, hiv, hia, hie, hdep,
        awsBoolValue]
    all_goals simp [countEv]
  · refine ⟨{ oc with yesInitEnv := some true, deployEnv := some true },
      [.promptConfirm (initEnvConfirmMsg oc), .envInitValidate, .envInitAsk, .envInitExecute,
       .logInfo (.envJustInitialized oc.envName)],
      ?_, rfl, rfl, rfl, ?_, ?_, ?_, ?_, ?_, ?_, ?_⟩
    · simp [maybeInitEnv, maybeInitEnvRest, prependTrace, happ, hy1, hy2, hinew, hiv, hia,
        hie, hdep, awsBoolValue]
    all_goals simp [countEv]

theorem maybeDeployEnv_deploys (w : World) (od : DeployOpts)
    (hws : od.envExistsInWs = true) (hdep : od.deployEnv = some true)
    (hdnew : w.newDeployEnvCmdErr = none)
    (hdv : w.deployEnvCmd.validate = none) (hda : w.deployEnvCmd.ask = none)
    (hde : w.deployEnvCmd.execute = none) :
    maybeDeployEnv w od
      = (.ok (), od, [.envDeployValidate, .envDeployAsk, .envDeployExecute]) := by
  simp [maybeDeployEnv, hws, hdep, awsBoolValue, hdnew, hdv, hda, hde]

/-!  Helper lemmas: structure of the per-workload loop.  -/

theorem seqR_error (e : String) (o : DeployOpts) (t : List Event)
    (f : DeployOpts → StepResult Unit) : seqR (.error e, o, t) f = (.error e, o, t) := rfl

theorem seqR_ok (u : Unit) (o : DeployOpts) (t : List Event)
    (f : DeployOpts → StepResult Unit) :
    seqR (.ok u, o, t) f = ((f o).1, (f o).2.1, t ++ (f o).2.2) := by
  rcases h : f o with ⟨r2, o2, t2⟩
  simp [seqR, h]

theorem runOne_ok_execute (w : World) (o : DeployOpts) (name : String)
    (o' : DeployOpts) (t : List Event) (h : runOne w o name = (.ok (), o', t)) :
    Event.wkldExecute name ∈ t := by
  unfold runOne at h
  repeat' split at h
  all_goals simp only [Prod.mk.injEq] at h
  all_goals obtain ⟨h1, h2, h3⟩ := h
  all_goals first
    | exact Except.noConfusion h1
    | (subst h3; simp [List.mem_append])

theorem runLoop_ok_execute (w : World) (o : DeployOpts) (names : List String)
    (o' : DeployOpts) (t : List Event) (h : runLoop w o names = (.ok (), o', t)) :
    ∀ n ∈ names, Event.wkldExecute n ∈ t := by
  induction names generalizing o o' t with
  | nil => simp
  | cons m rest ih =>
    intro n hn
    unfold runLoop seqR at h
    split at h
    · simp at h
    · rename_i o1 t1 heq
      split at h
      rename_i r2 o2 t2 heq2
      have heq2' : runLoop w o1 rest = (r2, o2, t2) := heq2
      simp only [Prod.mk.injEq] at h
      obtain ⟨hr, ho, ht⟩ := h
      subst ht
      subst hr
      rcases List.mem_cons.1 hn with rfl | hn
      · exact List.mem_append_left _ (runOne_ok_execute w o n o1 t1 heq)
      · exact List.mem_append_right _ (ih o1 o2 t2 heq2' n hn)

theorem runLoop_append (w : World) (o : DeployOpts) (l1 l2 : List String) :
    runLoop w o (l1 ++ l2) = seqR (runLoop w o l1) (fun o1 => runLoop w o1 l2) := by
  induction l1 generalizing o with
  | nil => simp [runLoop, seqR]
  | cons n rest ih =>
    simp only [List.cons_append, runLoop]
    rcases h1 : runOne w o n with ⟨r1, o1, t1⟩
    rcases r1 with e1 | u1
    · simp [h1, seqR_error]
    · simp only [h1, seqR_ok, List.append_eq]
      rw [ih o1]
      rcases h2 : runLoop w o1 rest with ⟨r2, o2, t2⟩
      rcases r2 with e2 | u2
      · simp [h2, seqR_error]
      · simp [h2, seqR_ok, List.append_assoc]

/-!  Helper lemmas: finer classification for the init decision, and the
exact trace of `loadWkldCmd`.  -/

theorem maybeInitWkldAdd_initphase (w : World) (o : DeployOpts) (name wtype : String) :
    ∀ e ∈ (maybeInitWkldAdd w o name wtype).2.2, isInitPhaseEvent e = true := by
  intro e he
  unfold maybeInitWkldAdd at he
  split at he
  · simp at he
  · split at he <;> simp_all [isInitPhaseEvent]

theorem maybeInitWkldConfirm_initphase (w : World) (o : DeployOpts) (name wtype : String) :
    ∀ e ∈ (maybeInitWkldConfirm w o name wtype).2.2, isInitPhaseEvent e = true := by
  intro e he
  unfold maybeInitWkldConfirm at he
  split at he
  · split at he
    · simp_all [isInitPhaseEvent]
    · simp only [prependTrace, List.cons_append, List.nil_append, List.mem_cons] at he
      rcases he with rfl | he
      · simp [isInitPhaseEvent]
      · exact maybeInitWkldAdd_initphase w _ name wtype e he
  · exact maybeInitWkldAdd_initphase w o name wtype e he

theorem maybeInitWkld_initphase (w : World) (o : DeployOpts) (name : String) :
    ∀ e ∈ (maybeInitWkld w o name).2.2, isInitPhaseEvent e = true := by
  intro e he
  unfold maybeInitWkld at he
  split at he
  · simp_all [isInitPhaseEvent]
  · split at he
    · simp_all [isInitPhaseEvent]
    · split at he
      · simp only [List.mem_cons, List.not_mem_nil, or_false] at he
        rcases he with rfl | rfl <;> simp [isInitPhaseEvent]
      · split at he
        · simp only [List.mem_cons, List.not_mem_nil, or_false] at he
          rcases he with rfl | rfl <;> simp [isInitPhaseEvent]
        · split at he
          · simp only [List.mem_cons, List.not_mem_nil, or_false] at he
            rcases he with rfl | rfl <;> simp [isInitPhaseEvent]
          · simp only [prependTrace, List.cons_append, List.nil_append, List.mem_cons] at he
            rcases he with rfl | rfl | he
            · simp [isInitPhaseEvent]
            · simp [isInitPhaseEvent]
            · exact maybeInitWkldConfirm_initphase w o name _ e he

theorem initphase_not_stage (n : String) (e : Event) (h : isInitPhaseEvent e = true) :
    isWkldStageEvent n e = false := by
  cases e <;> simp_all [isInitPhaseEvent, isWkldStageEvent]

theorem loadWkldCmd_trace (w : World) (o : DeployOpts) (name : String) :
    (loadWkldCmd w o name).2.2 = [.storeGetWorkload name] := by
  unfold loadWkldCmd
  split
  · rfl
  · split
    · rfl
    · split <;> rfl

/-- Shared helper: a workload already registered in the store is skipped by
`maybeInitWkld` right after the store listing. -/
theorem maybeInitWkld_mem_skip (w : World) (o : DeployOpts) (name : String)
    {wls : List Workload} (hls : w.storeListWorkloads = .ok wls)
    (hmem : (wls.map Workload.name).contains name = true) :
    maybeInitWkld w o name = (.ok (), o, [.storeListWorkloads]) := by
  unfold maybeInitWkld
  rw [hls]
  dsimp only
  rw [if_pos hmem]

/-- C1: the deploy-command factory never constructs the service deploy
command: both `switch` arms test the job-type set, so the registered
service-type workload "fe" ("Load Balanced Web Service") is rejected as
"unrecognized" by `setupDeployCmd` — and hence by `loadWkldCmd`, which
itself classifies the very same type as a service — instead of receiving
a runnable four-stage service deploy command as the claim states. -/
theorem setupDeployCmd_service_misclassified :
    defaultSetupDeployCmd "fe" "Load Balanced Web Service"
        = .error "unrecognized workload type Load Balanced Web Service"
    ∧ defaultSetupDeployCmd "mailer" "Scheduled Job" = .ok .jobCmd
    ∧ (loadWkldCmd wBase co1 "fe").1
        = .error "unrecognized workload type Load Balanced Web Service" :=
  ⟨rfl, rfl, rfl⟩

/-- C7: when the store's `GetWorkload` fails for workload "fe" of
application "app", the code renders "retrieve app from application fe"
— the application name in the first slot and the workload name in the
second, the reverse of what the claim (and the message's own wording)
prescribes. -/
theorem loadWkldCmd_retrieve_error_swapped :
    (loadWkldCmd cw7 co7 "fe").1 = .error "retrieve app from application fe: some error" :=
  rfl

/-- C8 counterexample: with `workloadNames` declared but empty (a non-nil
empty slice) and a Selector that would happily return "fe", `askName`
returns success without invoking the Selector and leaves the empty
sequence untouched, contradicting the claim that every empty sequence is
resolved interactively. -/
theorem askName_empty_nonnil_refuted :
    (askName wBase co8).1 = .ok ()
    ∧ (askName wBase co8).2.2 = []
    ∧ (askName wBase co8).2.1.workloadNames = some [] :=
  ⟨rfl, rfl, rfl⟩

/-- C8 amended: the Selector is invoked exactly when `workloadNames` is
nil; a nil sequence is replaced by the single selected name, a Selector
failure is tagged "select service or job", and any non-nil sequence —
even an empty one — is left untouched with no Selector call. -/
theorem askName_resolution (w : World) (o : DeployOpts) :
    (∀ n, o.workloadNames = none → w.selWorkload = .ok n →
        askName w o = (.ok (), { o with workloadNames := some [n] }, [.selWorkload]))
    ∧ (∀ e, o.workloadNames = none → w.selWorkload = .error e →
        askName w o = (.error ("select service or job: " ++ e), o, [.selWorkload]))
    ∧ (∀ l, o.workloadNames = some l → askName w o = (.ok (), o, [])) := by
  refine ⟨?_, ?_, ?_⟩
  · intro n h1 h2
    simp [askName, h1, h2]
  · intro e h1 h2
    simp [askName, h1, h2]
  · intro l h1
    simp [askName, h1]

/-- C8 witness: with no workload names given, the Selector's answer "fe"
becomes the singleton workload list. -/
theorem askName_resolution_witness :
    askName wBase co8w = (.ok (), { co8w with workloadNames := some ["fe"] }, [.selWorkload]) :=
  (askName_resolution wBase co8w).1 "fe" rfl rfl

/-- C9: for a workload name already in the store's workload list,
`maybeInitWkld` succeeds immediately, leaves the request untouched, and
its trace shows only the store listing — no manifest read, no
confirmation prompt, no add-workload call. -/
theorem maybeInitWkld_idempotent_skip (w : World) (o : DeployOpts) (name : String)
    {wls : List Workload} (hls : w.storeListWorkloads = .ok wls)
    (hmem : (wls.map Workload.name).contains name = true) :
    maybeInitWkld w o name = (.ok (), o, [.storeListWorkloads])
    ∧ (∀ m, Event.wsReadManifest m ∉ (maybeInitWkld w o name).2.2)
    ∧ (∀ msg, Event.promptConfirm msg ∉ (maybeInitWkld w o name).2.2)
    ∧ (∀ a n ty, Event.addWorkloadToApp a n ty ∉ (maybeInitWkld w o name).2.2) := by
  have hmain := maybeInitWkld_mem_skip w o name hls hmem
  refine ⟨hmain, ?_, ?_, ?_⟩ <;> intros <;> rw [hmain] <;> simp

/-- C9 witness: "fe" is already registered, so its init decision is the
idempotent skip. -/
theorem maybeInitWkld_idempotent_skip_witness :
    maybeInitWkld wBase co9 "fe" = (.ok (), co9, [.storeListWorkloads]) :=
  (maybeInitWkld_idempotent_skip wBase co9 "fe" rfl rfl).1

/-- C2 counterexample: a full successful `Run` of the registered job
"mailer" invokes the four stages in the order Ask, Validate, Execute,
RecommendActions — not in the claimed order Validate first, then Ask. -/
theorem stage_order_validate_first_refuted :
    (Run wBase co2).1 = .ok ()
    ∧ stageEventsOf "mailer" (Run wBase co2).2.2
        = [.wkldAsk "mailer", .wkldValidate "mailer", .wkldExecute "mailer",
           .wkldRecommendActions "mailer"]
    ∧ stageEventsOf "mailer" (Run wBase co2).2.2
        ≠ [.wkldValidate "mailer", .wkldAsk "mailer", .wkldExecute "mailer",
           .wkldRecommendActions "mailer"] := by
  refine ⟨rfl, rfl, ?_⟩
  intro h
  rw [show stageEventsOf "mailer" (Run wBase co2).2.2
      = [.wkldAsk "mailer", .wkldValidate "mailer", .wkldExecute "mailer",
         .wkldRecommendActions "mailer"] from rfl] at h
  simp at h

/-- C3 counterexample: a batch of one workload ("fe", k = 1) whose init
decision fails (unreadable manifest) makes `Run` return that error, yet
workload 1 never reached `Ask` — no stage event of "fe" is in the trace —
so "workloads 1..k ran Ask-or-later" fails for failures before the four
command stages. -/
theorem fail_fast_ask_or_later_refuted :
    (Run cw3 co3).1 = .error "read manifest for workload fe: some error"
    ∧ stageEventsOf "fe" (Run cw3 co3).2.2 = [] :=
  ⟨rfl, rfl⟩

/-- C6 counterexample: in a run of the job "mailer" whose
`RecommendActions` stage fails with "some error", `Run` returns the bare
cause: the error mentions neither the "job" family label resolved in that
iteration (visible in `wlType`) nor "svc", so the fourth stage's failure
is not wrapped with a stage/family tag. -/
theorem stage_wrap_all_four_refuted :
    (Run cw6 co6).1 = .error "some error"
    ∧ (Run cw6 co6).2.1.wlType = "job"
    ∧ countEv (.wkldRecommendActions "mailer") (Run cw6 co6).2.2 = 1
    ∧ strMentions "some error" "job" = false
    ∧ strMentions "some error" "svc" = false :=
  ⟨rfl, rfl, rfl, rfl, rfl⟩

/-- C2 amended: for every workload whose loop iteration completes
successfully, the four stages of its deploy command run exactly once each,
strictly in the order Ask, Validate, Execute, RecommendActions (the code
asks before validating; no stage is skipped or reordered). -/
theorem wkld_stage_order_ask_first (w : World) (o : DeployOpts) (name : String)
    {o' : DeployOpts} {t : List Event} (h : runOne w o name = (.ok (), o', t)) :
    stageEventsOf name t
      = [.wkldAsk name, .wkldValidate name, .wkldExecute name,
         .wkldRecommendActions name] := by
  unfold runOne at h
  split at h
  · simp at h
  · rename_i o1 t1 heq
    have h1 := maybeInitWkld_initphase w o name
    rw [heq] at h1
    simp only at h1
    split at h
    · simp at h
    · rename_i k o2 t2 heq2
      have h2 := loadWkldCmd_trace w o1 name
      rw [heq2] at h2
      simp only at h2
      subst h2
      split at h
      · simp at h
      · split at h
        · simp at h
        · split at h
          · simp at h
          · split at h
            · simp at h
            · simp only [Prod.mk.injEq] at h
              obtain ⟨-, -, h3⟩ := h
              subst h3
              have hnil1 : List.filter (isWkldStageEvent name) t1 = [] :=
                List.filter_eq_nil_iff.mpr (fun a ha => by
                  rw [initphase_not_stage name a (h1 a ha)]
                  simp)
              simp only [stageEventsOf, List.filter_append, hnil1, List.nil_append]
              simp [isWkldStageEvent]

/-- C2 witness: the successful iteration for the job "mailer" shows the
Ask-first stage order. -/
theorem wkld_stage_order_ask_first_witness :
    stageEventsOf "mailer" (runOne wBase co2 "mailer").2.2
      = [.wkldAsk "mailer", .wkldValidate "mailer", .wkldExecute "mailer",
         .wkldRecommendActions "mailer"] :=
  wkld_stage_order_ask_first wBase co2 "mailer" rfl

/-- C6 amended: in the per-workload loop, failures of Ask, Validate and
Execute are wrapped as "\<stage\> \<family\> deploy: \<cause\>" with the
job/svc family resolved in that iteration, but a RecommendActions failure
propagates unwrapped, exactly as the underlying cause. -/
theorem stage_error_wrapping (w : World) (o : DeployOpts) (name : String)
    {wl : Workload} {wls : List Workload} {k : DeployCmdKind}
    (hls : w.storeListWorkloads = .ok wls)
    (hmem : (wls.map Workload.name).contains name = true)
    (hget : w.storeGetWorkload name = .ok wl)
    (hsetup : o.setupDeployCmd name wl.wtype = .ok k) :
    (∀ c, (w.wkldStages name).ask = some c →
        (runOne w o name).1 = .error ("ask "
          ++ (if jobTypes.contains wl.wtype then jobWkldType else svcWkldType)
          ++ " deploy: " ++ c))
    ∧ (∀ c, (w.wkldStages name).ask = none → (w.wkldStages name).validate = some c →
        (runOne w o name).1 = .error ("validate "
          ++ (if jobTypes.contains wl.wtype then jobWkldType else svcWkldType)
          ++ " deploy: " ++ c))
    ∧ (∀ c, (w.wkldStages name).ask = none → (w.wkldStages name).validate = none →
          (w.wkldStages name).execute = some c →
        (runOne w o name).1 = .error ("execute "
          ++ (if jobTypes.contains wl.wtype then jobWkldType else svcWkldType)
          ++ " deploy: " ++ c))
    ∧ (∀ c, (w.wkldStages name).ask = none → (w.wkldStages name).validate = none →
          (w.wkldStages name).execute = none →
          (w.wkldStages name).recommendActions = some c →
        (runOne w o name).1 = .error c) := by
  have hskip := maybeInitWkld_mem_skip w o name hls hmem
  have hload : loadWkldCmd w o name
      = (.ok k, { o with wlType := (if jobTypes.contains wl.wtype then jobWkldType
          else svcWkldType) }, [.storeGetWorkload name]) := by
    unfold loadWkldCmd
    rw [hget]
    dsimp only
    rw [hsetup]
    dsimp only
    split <;> rfl
  refine ⟨?_, ?_, ?_, ?_⟩
  · intro c hc
    simp [runOne, hskip, hload, hc]
  · intro c hc1 hc2
    simp [runOne, hskip, hload, hc1, hc2]
  · intro c hc1 hc2 hc3
    simp [runOne, hskip, hload, hc1, hc2, hc3]
  · intro c hc1 hc2 hc3 hc4
    simp [runOne, hskip, hload, hc1, hc2, hc3, hc4]

/-- C6 witness: an `Ask` failure of the job "mailer" surfaces as
"ask job deploy: boom". -/
theorem stage_error_wrapping_witness :
    (runOne cw6w co6 "mailer").1 = .error "ask job deploy: boom" :=
  (stage_error_wrapping cw6w co6 "mailer" rfl rfl rfl rfl).1 "boom" rfl

/-- C3 amended: when the pre-loop phases succeed and the batch is
`pre ++ nk :: post` with every workload of `pre` succeeding and `nk`
failing, `Run` returns `nk`'s error at once with a trace that ends at
`nk`'s events — the result is the same for every `post`, so workloads
after the failing one never have any stage (init decision, command
construction, or the four command stages) invoked — and every workload
before the failing one completed its deploy (its `Execute` ran; nothing
is rolled back).  Workload `nk` itself ran only the stages up to its
failing one, so it reached `Ask` only if the failure was in one of the
four command stages. -/
theorem run_fail_fast (w : World) (o : DeployOpts)
    {oa ob oc od oe o1 o2 : DeployOpts} {ta tb tc td te t1 t2 : List Event}
    (pre : List String) (nk : String) (post : List String) {e : String}
    (h1 : askName w o = (.ok (), oa, ta))
    (h2 : askEnv w oa = (.ok (), ob, tb))
    (h3 : checkEnvExists w ob = (.ok (), oc, tc))
    (h4 : maybeInitEnv w oc = (.ok (), od, td))
    (h5 : maybeDeployEnv w od = (.ok (), oe, te))
    (hnames : oe.workloadNames = some (pre ++ nk :: post))
    (hpre : runLoop w oe pre = (.ok (), o1, t1))
    (hk : runOne w o1 nk = (.error e, o2, t2)) :
    Run w o = (.error e, o2, ta ++ (tb ++ (tc ++ (td ++ (te ++ (t1 ++ t2))))))
    ∧ ∀ m ∈ pre, Event.wkldExecute m ∈ t1 := by
  constructor
  · have hloop : runLoop w oe (pre ++ nk :: post) = (.error e, o2, t1 ++ t2) := by
      rw [runLoop_append, hpre]
      simp only [seqR_ok]
      simp only [runLoop]
      rw [hk]
      simp only [seqR_error]
    simp only [Run, h1, h2, h3, h4, h5, seqR_ok, hnames, Option.getD_some, hloop]
  · exact runLoop_ok_execute w oe pre o1 t1 hpre

/-- C3 witness: of the batch ["mailer", "nightly"], "nightly" fails at
Execute; Run surfaces "execute job deploy: boom" and "mailer" had already
completed its Execute. -/
theorem run_fail_fast_witness :
    (Run cw3w co3w).1 = .error "execute job deploy: boom"
    ∧ Event.wkldExecute "mailer" ∈ (Run cw3w co3w).2.2 := by
  have h := run_fail_fast cw3w co3w ["mailer"] "nightly" [] rfl rfl rfl rfl rfl rfl rfl rfl
  have hm := h.2 "mailer" (by simp)
  refine ⟨by rw [h.1]; rfl, ?_⟩
  rw [h.1]
  exact List.mem_append_right _ (List.mem_append_right _ (List.mem_append_right _
    (List.mem_append_right _ (List.mem_append_right _ (List.mem_append_left _ hm)))))

/-- C4: if the resolution phases succeed, the store does not know the
environment, and the workspace environment list does not contain it
either, then `Run` refuses with exactly the error "environment
\<name\> does not exist in the workspace" (the name in quotes) and the
whole run performs no Store/Workspace/infrastructure mutation: the trace
has no add-workload call and no `Execute` of any command. -/
theorem env_unresolvable_refusal (w : World) (o : DeployOpts)
    {oa ob : DeployOpts} {ta tb : List Event} {envs : List String}
    (h1 : askName w o = (.ok (), oa, ta))
    (h2 : askEnv w oa = (.ok (), ob, tb))
    (hget : w.storeGetEnvironment = .noSuchEnv)
    (hcache : ob.wsEnvironments = some envs
      ∨ (ob.wsEnvironments = none ∧ w.wsListEnvironments = .ok envs))
    (hnot : envs.contains ob.envName = false) :
    (Run w o).1
      = .error ("environment " ++ goQuote ob.envName ++ " does not exist in the workspace")
    ∧ ∀ e ∈ (Run w o).2.2, isMutationEvent e = false := by
  obtain ⟨oc, tc, hchk⟩ : ∃ oc tc, checkEnvExists w ob
      = (.error ("environment " ++ goQuote ob.envName ++ " does not exist in the workspace"),
         oc, tc) := by
    rcases hcache with hc | ⟨hc1, hc2⟩
    · refine ⟨{ ob with envExistsInApp := false, envExistsInWs := false },
        [.storeGetEnvironment, .logError (.envUnresolvable ob.envName)], ?_⟩
      unfold checkEnvExists checkEnvExistsRest listWsEnvironments prependTrace
      rw [hget]
      dsimp only
      rw [hc]
      dsimp only
      rw [hnot]
      simp
    · refine ⟨{ ob with envExistsInApp := false, wsEnvironments := some envs, envExistsInWs := false },
        [.storeGetEnvironment, .wsListEnvironments, .logError (.envUnresolvable ob.envName)],
        ?_⟩
      unfold checkEnvExists checkEnvExistsRest listWsEnvironments prependTrace
      rw [hget]
      dsimp only
      rw [hc1]
      dsimp only
      rw [hc2]
      dsimp only
      rw [hnot]
      simp
  have hrun : Run w o
      = (.error ("environment " ++ goQuote ob.envName ++ " does not exist in the workspace"),
         oc, ta ++ (tb ++ tc)) := by
    simp only [Run, h1, h2, hchk, seqR_ok, seqR_error]
  have hta := askName_events w o
  rw [h1] at hta
  simp only at hta
  have htb := askEnv_events w oa
  rw [h2] at htb
  simp only at htb
  have htc := checkEnvExists_events w ob
  rw [hchk] at htc
  simp only at htc
  refine ⟨by rw [hrun], ?_⟩
  intro ev hev
  rw [hrun] at hev
  dsimp only at hev
  rcases List.mem_append.1 hev with h | h
  · exact resolve_not_mutation ev (hta ev h)
  · rcases List.mem_append.1 h with h' | h'
    · exact resolve_not_mutation ev (htb ev h')
    · exact check_not_mutation ev (htc ev h')

/-- C4 witness: env "test" in neither registry; `Run` refuses with the
quoted message and a mutation-free trace. -/
theorem env_unresolvable_refusal_witness :
    (Run cw4 co4).1 = .error "environment \"test\" does not exist in the workspace"
    ∧ ∀ e ∈ (Run cw4 co4).2.2, isMutationEvent e = false :=
  env_unresolvable_refusal cw4 co4 rfl rfl rfl (Or.inr ⟨rfl, rfl⟩) rfl

/-- C10: when the environment is registered in the store but missing from
the workspace, `checkEnvExists` succeeds while emitting only the
informational missing-manifest notice, and `maybeDeployEnv` then returns
success with an empty trace — no env-deploy stage runs — even though
`deployEnv` is still the explicitly forced `true`; the forced flag is
silently ignored rather than reported as an error. -/
theorem maybeDeployEnv_remote_only_skip (w : World) (o : DeployOpts) {envs : List String}
    (hdep : o.deployEnv = some true)
    (hget : w.storeGetEnvironment = .found)
    (hcache : o.wsEnvironments = some envs
      ∨ (o.wsEnvironments = none ∧ w.wsListEnvironments = .ok envs))
    (hnot : envs.contains o.envName = false) :
    (checkEnvExists w o).1 = .ok ()
    ∧ Event.logInfo (.envManifestMissing o.envName) ∈ (checkEnvExists w o).2.2
    ∧ (checkEnvExists w o).2.1.deployEnv = some true
    ∧ maybeDeployEnv w (checkEnvExists w o).2.1
        = (.ok (), (checkEnvExists w o).2.1, []) := by
  obtain ⟨oc, tc, hchk, hocWs, hocDep, hmem⟩ : ∃ oc tc,
      checkEnvExists w o = (.ok (), oc, tc)
      ∧ oc.envExistsInWs = false
      ∧ oc.deployEnv = o.deployEnv
      ∧ Event.logInfo (.envManifestMissing o.envName) ∈ tc := by
    rcases hcache with hc | ⟨hc1, hc2⟩
    · refine ⟨{ o with envExistsInApp := true, envExistsInWs := false },
        [.storeGetEnvironment, .logInfo (.envManifestMissing o.envName)],
        ?_, rfl, rfl, by simp⟩
      unfold checkEnvExists checkEnvExistsRest listWsEnvironments prependTrace
      rw [hget]
      dsimp only
      rw [hc]
      dsimp only
      rw [hnot]
      simp
    · refine ⟨{ o with envExistsInApp := true, wsEnvironments := some envs, envExistsInWs := false },
        [.storeGetEnvironment, .wsListEnvironments, .logInfo (.envManifestMissing o.envName)],
        ?_, rfl, rfl, by simp⟩
      unfold checkEnvExists checkEnvExistsRest listWsEnvironments prependTrace
      rw [hget]
      dsimp only
      rw [hc1]
      dsimp only
      rw [hc2]
      dsimp only
      rw [hnot]
      simp
  rw [hchk]
  refine ⟨rfl, hmem, by rw [hocDep, hdep], ?_⟩
  unfold maybeDeployEnv
  rw [hocWs]
  rfl

/-- C10 witness: env "test" registered remotely only, `--deploy-env=true`
forced; the deploy step is skipped with only the informational notice. -/
theorem maybeDeployEnv_remote_only_skip_witness :
    (checkEnvExists cw10 co10).1 = .ok ()
    ∧ Event.logInfo (.envManifestMissing "test") ∈ (checkEnvExists cw10 co10).2.2
    ∧ (checkEnvExists cw10 co10).2.1.deployEnv = some true
    ∧ maybeDeployEnv cw10 (checkEnvExists cw10 co10).2.1
        = (.ok (), (checkEnvExists cw10 co10).2.1, []) :=
  maybeDeployEnv_remote_only_skip cw10 co10 rfl rfl (Or.inr ⟨rfl, rfl⟩) rfl

/-- C5: in a run whose resolution and existence check succeed with the
environment absent from the app, where `yesInitEnv` resolves to true, the
three env-init stages succeed, and `deployEnv` was unset beforehand, the
controller sets `deployEnv` to true (still true at the end of the run),
emits the informational just-initialized notice, and the environment-init
and environment-deploy commands' stages each run exactly once in the whole
run. -/
theorem env_init_infers_deploy (w : World) (o : DeployOpts)
    {oa ob oc : DeployOpts} {ta tb tc : List Event}
    (h1 : askName w o = (.ok (), oa, ta))
    (h2 : askEnv w oa = (.ok (), ob, tb))
    (h3 : checkEnvExists w ob = (.ok (), oc, tc))
    (happ : oc.envExistsInApp = false)
    (hdep : oc.deployEnv = none)
    (hyes : oc.yesInitEnv = some true
      ∨ (oc.yesInitEnv = none ∧ w.promptConfirm (initEnvConfirmMsg oc) = .ok true))
    (hinew : w.newInitEnvCmdErr = none)
    (hiv : w.initEnvCmd.validate = none) (hia : w.initEnvCmd.ask = none)
    (hie : w.initEnvCmd.execute = none)
    (hdnew : w.newDeployEnvCmdErr = none)
    (hdv : w.deployEnvCmd.validate = none) (hda : w.deployEnvCmd.ask = none)
    (hde : w.deployEnvCmd.execute = none) :
    countEv .envInitValidate (Run w o).2.2 = 1
    ∧ countEv .envInitAsk (Run w o).2.2 = 1
    ∧ countEv .envInitExecute (Run w o).2.2 = 1
    ∧ countEv .envDeployValidate (Run w o).2.2 = 1
    ∧ countEv .envDeployAsk (Run w o).2.2 = 1
    ∧ countEv .envDeployExecute (Run w o).2.2 = 1
    ∧ Event.logInfo (.envJustInitialized oc.envName) ∈ (Run w o).2.2
    ∧ (Run w o).2.1.deployEnv = some true := by
  have hws : oc.envExistsInWs = true := checkEnvExists_ok_ws w ob oc tc h3 happ
  obtain ⟨od, td, h4, hodDep, hodWs, hodNames, c1, c2, c3, d1, d2, d3, hlog⟩ :=
    maybeInitEnv_fresh w oc happ hdep hyes hinew hiv hia hie
  have h5 : maybeDeployEnv w od
      = (.ok (), od, [.envDeployValidate, .envDeployAsk, .envDeployExecute]) :=
    maybeDeployEnv_deploys w od (hodWs.trans hws) hodDep hdnew hdv hda hde
  rcases hloop : runLoop w od (od.workloadNames.getD []) with ⟨rl, ol, tl⟩
  have hrun : Run w o = (rl, ol,
      ta ++ (tb ++ (tc ++ (td ++
        ([.envDeployValidate, .envDeployAsk, .envDeployExecute] ++ tl))))) := by
    simp only [Run, h1, h2, h3, h4, h5, seqR_ok, hloop]
  have hta := askName_events w o
  rw [h1] at hta
  simp only at hta
  have htb := askEnv_events w oa
  rw [h2] at htb
  simp only at htb
  have htc := checkEnvExists_events w ob
  rw [h3] at htc
  simp only at htc
  have htl := runLoop_events w od (od.workloadNames.getD [])
  rw [hloop] at htl
  simp only at htl
  have zta : ∀ e, isEnvCmdEvent e = true → countEv e ta = 0 := fun e he =>
    countEv_zero_of_class isResolveEvent ta e hta (envcmd_not_resolve e he)
  have ztb : ∀ e, isEnvCmdEvent e = true → countEv e tb = 0 := fun e he =>
    countEv_zero_of_class isResolveEvent tb e htb (envcmd_not_resolve e he)
  have ztc : ∀ e, isEnvCmdEvent e = true → countEv e tc = 0 := fun e he =>
    countEv_zero_of_class isCheckEvent tc e htc (envcmd_not_check e he)
  have ztl : ∀ e, isEnvCmdEvent e = true → countEv e tl = 0 := fun e he =>
    countEv_zero_of_class isLoopEvent tl e htl (envcmd_not_loop e he)
  refine ⟨?_, ?_, ?_, ?_, ?_, ?_, ?_, ?_⟩
  · rw [hrun]
    dsimp only
    simp only [countEv_append]
    rw [zta Event.envInitValidate rfl, ztb Event.envInitValidate rfl, ztc Event.envInitValidate rfl, ztl Event.envInitValidate rfl, c1]
    simp [countEv]
  · rw [hrun]
    dsimp only
    simp only [countEv_append]
    rw [zta Event.envInitAsk rfl, ztb Event.envInitAsk rfl, ztc Event.envInitAsk rfl, ztl Event.envInitAsk rfl, c2]
    simp [countEv]
  · rw [hrun]
    dsimp only
    simp only [countEv_append]
    rw [zta Event.envInitExecute rfl, ztb Event.envInitExecute rfl, ztc Event.envInitExecute rfl, ztl Event.envInitExecute rfl, c3]
    simp [countEv]
  · rw [hrun]
    dsimp only
    simp only [countEv_append]
    rw [zta Event.envDeployValidate rfl, ztb Event.envDeployValidate rfl, ztc Event.envDeployValidate rfl, ztl Event.envDeployValidate rfl, d1]
    simp [countEv]
  · rw [hrun]
    dsimp only
    simp only [countEv_append]
    rw [zta Event.envDeployAsk rfl, ztb Event.envDeployAsk rfl, ztc Event.envDeployAsk rfl, ztl Event.envDeployAsk rfl, d2]
    simp [countEv]
  · rw [hrun]
    dsimp only
    simp only [countEv_append]
    rw [zta Event.envDeployExecute rfl, ztb Event.envDeployExecute rfl, ztc Event.envDeployExecute rfl, ztl Event.envDeployExecute rfl, d3]
    simp [countEv]
  · rw [hrun]
    dsimp only
    exact List.mem_append_right _ (List.mem_append_right _ (List.mem_append_right _
      (List.mem_append_left _ hlog)))
  · rw [hrun]
    dsimp only
    have hol := runLoop_deployEnv w od (od.workloadNames.getD [])
    rw [hloop] at hol
    simp only at hol
    rw [hol, hodDep]

/-- C5 witness: env "test" absent from the app but present in the
workspace, `--init-env=true`, `deployEnv` unset: the run initializes the
environment, infers `deployEnv := true`, and deploys it exactly once. -/
theorem env_init_infers_deploy_witness :
    countEv .envInitValidate (Run cw5 co5).2.2 = 1
    ∧ countEv .envInitAsk (Run cw5 co5).2.2 = 1
    ∧ countEv .envInitExecute (Run cw5 co5).2.2 = 1
    ∧ countEv .envDeployValidate (Run cw5 co5).2.2 = 1
    ∧ countEv .envDeployAsk (Run cw5 co5).2.2 = 1
    ∧ countEv .envDeployExecute (Run cw5 co5).2.2 = 1
    ∧ Event.logInfo (.envJustInitialized "test") ∈ (Run cw5 co5).2.2
    ∧ (Run cw5 co5).2.1.deployEnv = some true :=
  env_init_infers_deploy cw5 co5 rfl rfl rfl rfl rfl (Or.inl rfl) rfl rfl rfl rfl rfl rfl
    rfl rfl

end CopilotDeploy
